import Mathlib

/-!
Shallow embedding of the NetViz network simulator (graph.js and network.js)
and verification of the specification claims about it.

Modelling conventions:
- A JS object used as a string-keyed map is an association list that keeps
  insertion order, matching JS property-enumeration order for the non-numeric
  keys this program uses.
- JS numbers used as probabilities and random draws are rationals; edge costs
  are natural numbers (the spec restricts costs to positive integers).
- The value Infinity used by Dijkstra is the value none of an Option Nat;
  a missing map entry (JS undefined) is a missing association-list entry.
- Math.random() is an explicit stream of draws (a function from a counter
  index to a rational) threaded through the sampling operations.
-/

/-- Adjacency entry: the JS object with fields vertex and cost pushed by
Graph.addEdge. -/
structure Adj where
  vertex : String
  cost : Nat
deriving Repr, DecidableEq

/-- The Graph.graph object of graph.js: a string-keyed map from a vertex to
its adjacency list, with JS insertion order preserved. -/
abbrev Graph := List (String × List Adj)

/-- Lookup of a key in a JS-object-as-map; none models undefined. -/
def lookupEntry {α : Type} (l : List (String × α)) (k : String) : Option α :=
  (l.find? (fun p => p.1 == k)).map (fun p => p.2)

/-- JS property write obj[k] = v: overwrites in place when the key exists,
otherwise appends a new entry (insertion order). -/
def setAssoc {α : Type} (l : List (String × α)) (k : String) (v : α) :
    List (String × α) :=
  if l.any (fun p => p.1 == k) then
    l.map (fun p => if p.1 == k then (p.1, v) else p)
  else l ++ [(k, v)]

/-- JS hasOwnProperty / key-presence test. -/
def hasKeyB {α : Type} (l : List (String × α)) (k : String) : Bool :=
  l.any (fun p => p.1 == k)

/-- Boolean flag lookup as JS truthiness does it: a missing entry
(undefined) counts as false. -/
def lookupFlag (l : List (String × Bool)) (k : String) : Bool :=
  (lookupEntry l k).getD false

/-- Graph.graph.hasOwnProperty(vertex) of graph.js. -/
def hasVertexB (g : Graph) (v : String) : Bool :=
  g.any (fun p => p.1 == v)

/-- Graph.addVertex of graph.js: creates an empty adjacency list unless the
vertex already exists. -/
def addVertex (g : Graph) (v : String) : Graph :=
  if hasVertexB g v then g else g ++ [(v, [])]

/-- The JS statement this.graph[k].push(a): appends one adjacency entry to
the list stored under key k. -/
def pushAdj (g : Graph) (k : String) (a : Adj) : Graph :=
  g.map (fun p => if p.1 == k then (p.1, p.2 ++ [a]) else p)

/-- Graph.addEdge of graph.js: when both endpoints exist it pushes the pair
of symmetric adjacency entries, first onto src, then onto des. It performs
no duplicate-edge or self-loop check. -/
def addEdge (g : Graph) (src des : String) (cost : Nat) : Graph :=
  if hasVertexB g src && hasVertexB g des then
    pushAdj (pushAdj g src ⟨des, cost⟩) des ⟨src, cost⟩
  else g

/-- Graph.getNeighbors of graph.js; an unknown vertex yields the empty
list. Inside Network methods the field access this.networkGraph.graph[v]
is the same lookup (those methods only apply it to existing vertices). -/
def getNeighbors (g : Graph) (v : String) : List Adj :=
  (lookupEntry g v).getD []

/-- The mutable state of the Network class of network.js: the graph, the two
failure-flag maps, and the two failure probabilities (fields of the
parameterized constructor version of network.js). -/
structure Network where
  networkGraph : Graph
  nodeFailures : List (String × Bool)
  linkFailures : List (String × Bool)
  nodeFailureProbability : ℚ
  linkFailureProbability : ℚ
deriving Repr, DecidableEq

/-- Network.addEdgeWithFailure of network.js. Reads the adjacency lists of
both endpoints (a missing endpoint would make the JS throw, modelled as
none); when the edge is absent in both directions it inserts it and stores
the sampled failure flag under the single insertion-direction key
from ++ "-" ++ to, consuming one random draw. On a duplicate it changes
nothing and consumes no draw. -/
def addEdgeWithFailure (net : Network) (frm toV : String) (cost : Nat)
    (rng : Nat → ℚ) (i : Nat) : Option (Network × Nat) :=
  if hasVertexB net.networkGraph frm && hasVertexB net.networkGraph toV then
    let edgeExists :=
      (getNeighbors net.networkGraph frm).any (fun e => e.vertex == toV) ||
      (getNeighbors net.networkGraph toV).any (fun e => e.vertex == frm)
    if edgeExists then some (net, i)
    else
      some ({ net with
                networkGraph := addEdge net.networkGraph frm toV cost,
                linkFailures := setAssoc net.linkFailures (frm ++ "-" ++ toV)
                  (decide (rng i < net.linkFailureProbability)) }, i + 1)
  else none

/-- One pass of the failure-toggling loop shared by Network.checkNodeFailures
and Network.checkLinkFailures: each entry consumes one random draw and is
toggled when the draw is below the probability. Returns the updated map and
the next draw index. -/
def checkFlags (p : ℚ) (rng : Nat → ℚ) :
    List (String × Bool) → Nat → List (String × Bool) × Nat
  | [], i => ([], i)
  | (n, b) :: fs, i =>
    let b2 := if rng i < p then !b else b
    let rest := checkFlags p rng fs (i + 1)
    ((n, b2) :: rest.1, rest.2)

/-- Network.checkNodeFailures of network.js. -/
def checkNodeFailures (net : Network) (rng : Nat → ℚ) (i : Nat) :
    Network × Nat :=
  let r := checkFlags net.nodeFailureProbability rng net.nodeFailures i
  ({ net with nodeFailures := r.1 }, r.2)

/-- Network.checkLinkFailures of network.js. -/
def checkLinkFailures (net : Network) (rng : Nat → ℚ) (i : Nat) :
    Network × Nat :=
  let r := checkFlags net.linkFailureProbability rng net.linkFailures i
  ({ net with linkFailures := r.1 }, r.2)

/-- The state mutation of one simulation tick of Network.startSimulation:
checkNodeFailures followed by checkLinkFailures (the subsequent
findShortestPath call and visualization read state but mutate nothing). -/
def simulateTick (net : Network) (rng : Nat → ℚ) (i : Nat) : Network × Nat :=
  let r := checkNodeFailures net rng i
  checkLinkFailures r.1 rng r.2

/-- Iteration of simulateTick over a number of ticks. -/
def simulateTicks (rng : Nat → ℚ) : Network → Nat → Nat → Network × Nat
  | net, i, 0 => (net, i)
  | net, i, m + 1 =>
    let r := simulateTick net rng i
    simulateTicks rng r.1 r.2 m

/-- Network.resetNetwork of network.js: overwrites every node flag and every
link flag with false. The JS body contains no Math.random() call, so the
model takes no draw stream at all. -/
def resetNetwork (net : Network) : Network :=
  { net with
      nodeFailures := net.nodeFailures.map (fun p => (p.1, false)),
      linkFailures := net.linkFailures.map (fun p => (p.1, false)) }

/-- One JS comparison x >= c where x may be NaN (a failed parseFloat,
modelled as none): any comparison with NaN is false. -/
def numGe (x : Option ℚ) (c : ℚ) : Bool :=
  match x with
  | none => false
  | some q => c ≤ q

/-- One JS comparison x <= c where x may be NaN. -/
def numLe (x : Option ℚ) (c : ℚ) : Bool :=
  match x with
  | none => false
  | some q => q ≤ c

/-- The guard of the setProbabilitiesButton click handler of network.js:
nodeProbInput >= 0 && nodeProbInput <= 1 && linkProbInput >= 0 &&
linkProbInput <= 1, with parseFloat failures behaving as NaN. -/
def probInputsValid (np lp : Option ℚ) : Bool :=
  numGe np 0 && numLe np 1 && numGe lp 0 && numLe lp 1

/-- The state change of the setProbabilitiesButton click handler of
network.js (the setProbabilities command): inside the guard both
probabilities are replaced, otherwise nothing changes. -/
def setProbabilities (net : Network) (np lp : Option ℚ) : Network :=
  if probInputsValid np lp then
    { net with
        nodeFailureProbability := np.getD 0,
        linkFailureProbability := lp.getD 0 }
  else net

/-- The distances map of Network.findShortestPath: a value none models
Infinity, a missing entry models undefined. -/
abbrev DistMap := List (String × Option Nat)

/-- The previous map of Network.findShortestPath: a value none models null,
a missing entry models undefined. -/
abbrev PrevMap := List (String × Option String)

/-- Lookup in the distances map, keeping the missing/Infinity distinction. -/
def lookupD (dist : DistMap) (k : String) : Option (Option Nat) :=
  lookupEntry dist k

/-- The JS comparison distances[a] < distances[b] as findShortestPath uses
it: comparisons against undefined (NaN result) and comparisons where the
left side is Infinity are false; a finite left side is below Infinity. -/
def dLt : Option (Option Nat) → Option (Option Nat) → Bool
  | some (some x), some (some y) => x < y
  | some (some _), some none => true
  | _, _ => false

/-- Test for a finite (neither missing nor Infinity) distance value. -/
def isFiniteD : Option (Option Nat) → Bool
  | some (some _) => true
  | _ => false

/-- The minNode selection of findShortestPath: fold over the queue in
insertion order, replacing the candidate only on a strictly smaller
distance, starting from the first element. -/
def selectMinAux (dist : DistMap) : List String → String → String
  | [], best => best
  | n :: ns, best =>
    selectMinAux dist ns (if dLt (lookupD dist n) (lookupD dist best) then n else best)

/-- The relaxation test newDist < distances[neighbor] of findShortestPath:
when the current distance of minNode is finite the candidate distance
through minNode is compared with dLt; a non-finite current distance makes
the JS comparison false (NaN or Infinity on the left). -/
def relaxCond (curD : Option (Option Nat)) (c : Nat)
    (t : Option (Option Nat)) : Bool :=
  match curD with
  | some (some d) => dLt (some (some (d + c))) t
  | _ => false

/-- The value newDist written by a successful relaxation. -/
def newDistVal (curD : Option (Option Nat)) (c : Nat) : Option Nat :=
  match curD with
  | some (some d) => some (d + c)
  | _ => none

/-- The neighbor-relaxation loop of findShortestPath over the adjacency list
of minNode: a neighbor is skipped when its node flag or the link flag under
the directional key minNode ++ "-" ++ neighbor is truthy; otherwise the
distance through minNode is compared and distance and predecessor updated. -/
def relaxEdges (nodeF linkF : List (String × Bool)) (minNode : String)
    (curD : Option (Option Nat)) :
    List Adj → DistMap → PrevMap → DistMap × PrevMap
  | [], dist, prev => (dist, prev)
  | e :: es, dist, prev =>
    if lookupFlag nodeF e.vertex || lookupFlag linkF (minNode ++ "-" ++ e.vertex) then
      relaxEdges nodeF linkF minNode curD es dist prev
    else
      if relaxCond curD e.cost (lookupD dist e.vertex) then
        relaxEdges nodeF linkF minNode curD es
          (setAssoc dist e.vertex (newDistVal curD e.cost))
          (setAssoc prev e.vertex (some minNode))
      else relaxEdges nodeF linkF minNode curD es dist prev

/-- The main while-loop of findShortestPath. The fuel argument starts at the
queue length; the loop deletes the selected minNode from the queue each
round, so the fuel is never exhausted on the states the program reaches.
A selected minimum distance equal to Infinity terminates the loop. -/
def dijkstraLoop (nodeF linkF : List (String × Bool)) (g : Graph) :
    Nat → List String → DistMap → PrevMap → DistMap × PrevMap
  | 0, _, dist, prev => (dist, prev)
  | _ + 1, [], dist, prev => (dist, prev)
  | fuel + 1, q :: qs, dist, prev =>
    if lookupD dist (selectMinAux dist qs q) = some none then (dist, prev)
    else
      dijkstraLoop nodeF linkF g fuel
        ((q :: qs).erase (selectMinAux dist qs q))
        (relaxEdges nodeF linkF (selectMinAux dist qs q)
          (lookupD dist (selectMinAux dist qs q))
          (getNeighbors g (selectMinAux dist qs q)) dist prev).1
        (relaxEdges nodeF linkF (selectMinAux dist qs q)
          (lookupD dist (selectMinAux dist qs q))
          (getNeighbors g (selectMinAux dist qs q)) dist prev).2

/-- Join of a predecessor lookup to the JS truthiness test of the
reconstruction loop: a missing entry (undefined) and a stored null both
stop the walk. -/
def lookupPrevJoin (prev : PrevMap) (k : String) : Option String :=
  (lookupEntry prev k).bind id

/-- The path-reconstruction loop of findShortestPath: while (currentNode)
unshift it and follow the predecessor link. The empty string is falsy in
JS, so it also stops the walk. The fuel bounds the walk; predecessor
chains produced by the loop above are acyclic and shorter than the bound
used below, so the bound is never hit on reachable states. -/
def walkBack (prev : PrevMap) : Nat → Option String → List String → List String
  | _, none, acc => acc
  | 0, some _, acc => acc
  | fuel + 1, some c, acc =>
    if c == "" then acc else walkBack prev fuel (lookupPrevJoin prev c) (c :: acc)

/-- Network.findShortestPath of network.js: Dijkstra over the graph keys in
insertion order, pruned by the current failure flags, followed by the
predecessor walk from the end vertex; a reconstructed sequence of length
at most one yields null (none). -/
def findShortestPath (net : Network) (start endV : String) :
    Option (List String) :=
  let nodes := net.networkGraph.map (fun p => p.1)
  let dist0 : DistMap := net.networkGraph.map (fun p => (p.1, none))
  let prev0 : PrevMap := net.networkGraph.map (fun p => (p.1, none))
  let dist1 := setAssoc dist0 start (some 0)
  let r := dijkstraLoop net.nodeFailures net.linkFailures net.networkGraph
    nodes.length nodes dist1 prev0
  let path := walkBack r.2 (r.2.length + 1) (some endV) []
  if path.length > 1 then some path else none

/-! ### Association-list lemmas -/

theorem lookupEntry_cons {α : Type} (a : String × α) (l : List (String × α))
    (k : String) :
    lookupEntry (a :: l) k = if a.1 == k then some a.2 else lookupEntry l k := by
  cases h : (a.1 == k) <;> simp [lookupEntry, List.find?_cons, h]

theorem lookupEntry_mapSet_self {α : Type} (v : α) :
    ∀ (l : List (String × α)) (k : String),
      l.any (fun p => p.1 == k) = true →
      lookupEntry (l.map fun p => if p.1 == k then (p.1, v) else p) k = some v := by
  intro l k
  induction l with
  | nil => intro h; simp at h
  | cons a t ih =>
    intro h
    by_cases hak : a.1 = k
    · simp [List.map_cons, lookupEntry_cons, hak]
    · have hb : (a.1 == k) = false := beq_eq_false_iff_ne.mpr hak
      have ht : t.any (fun p => p.1 == k) = true := by
        rw [List.any_cons, hb, Bool.false_or] at h
        exact h
      simpa [List.map_cons, lookupEntry_cons, hak] using ih ht

theorem lookupEntry_appendOne_self {α : Type} (v : α) :
    ∀ (l : List (String × α)) (k : String),
      l.any (fun p => p.1 == k) = false →
      lookupEntry (l ++ [(k, v)]) k = some v := by
  intro l k
  induction l with
  | nil => intro _; simp [lookupEntry_cons]
  | cons a t ih =>
    intro h
    rw [List.any_cons] at h
    have hb := (Bool.or_eq_false_iff.mp h).1
    have ht := (Bool.or_eq_false_iff.mp h).2
    have hak : ¬ (a.1 = k) := by simpa using hb
    simpa [lookupEntry_cons, hak] using ih ht

theorem lookupEntry_setAssoc_self {α : Type} (l : List (String × α))
    (k : String) (v : α) :
    lookupEntry (setAssoc l k v) k = some v := by
  unfold setAssoc
  split
  case isTrue h => exact lookupEntry_mapSet_self v l k h
  case isFalse h =>
    exact lookupEntry_appendOne_self v l k (Bool.eq_false_iff.mpr h)

theorem lookupEntry_mapSet_ne {α : Type} (v : α) (k k2 : String)
    (hne : k2 ≠ k) :
    ∀ (l : List (String × α)),
      lookupEntry (l.map fun p => if p.1 == k then (p.1, v) else p) k2 =
        lookupEntry l k2 := by
  intro l
  induction l with
  | nil => rfl
  | cons a t ih =>
    by_cases hak : a.1 = k
    · simpa [List.map_cons, lookupEntry_cons, hak, Ne.symm hne] using ih
    · by_cases h2 : a.1 = k2
      · simp [List.map_cons, lookupEntry_cons, hak, h2, hne]
      · simpa [List.map_cons, lookupEntry_cons, hak, h2] using ih

theorem lookupEntry_appendOne_ne {α : Type} (v : α) (k k2 : String)
    (hne : k2 ≠ k) :
    ∀ (l : List (String × α)),
      lookupEntry (l ++ [(k, v)]) k2 = lookupEntry l k2 := by
  intro l
  induction l with
  | nil => simp [lookupEntry_cons, lookupEntry, Ne.symm hne]
  | cons a t ih => simp [lookupEntry_cons, ih]

theorem lookupEntry_setAssoc_ne {α : Type} (l : List (String × α))
    (k k2 : String) (v : α) (hne : k2 ≠ k) :
    lookupEntry (setAssoc l k v) k2 = lookupEntry l k2 := by
  unfold setAssoc
  split
  · exact lookupEntry_mapSet_ne v k k2 hne l
  · exact lookupEntry_appendOne_ne v k k2 hne l

theorem hasKeyB_mapSet {α : Type} (l : List (String × α)) (k k2 : String)
    (v : α) :
    hasKeyB (l.map fun p => if p.1 == k then (p.1, v) else p) k2 =
      hasKeyB l k2 := by
  unfold hasKeyB
  induction l with
  | nil => rfl
  | cons a t ih =>
    rw [List.map_cons, List.any_cons, List.any_cons, ih]
    by_cases hak : a.1 = k <;> simp [hak]

theorem hasKeyB_setAssoc_ne {α : Type} (l : List (String × α))
    (k k2 : String) (v : α) (hne : k2 ≠ k) :
    hasKeyB (setAssoc l k v) k2 = hasKeyB l k2 := by
  unfold setAssoc
  split
  · exact hasKeyB_mapSet l k k2 v
  · unfold hasKeyB
    rw [List.any_append]
    simp [Ne.symm hne]

theorem lookupFlag_setAssoc_self (l : List (String × Bool)) (k : String)
    (b : Bool) : lookupFlag (setAssoc l k b) k = b := by
  simp [lookupFlag, lookupEntry_setAssoc_self]

theorem lookupFlag_setAssoc_ne (l : List (String × Bool)) (k k2 : String)
    (b : Bool) (hne : k2 ≠ k) :
    lookupFlag (setAssoc l k b) k2 = lookupFlag l k2 := by
  simp [lookupFlag, lookupEntry_setAssoc_ne l k k2 b hne]

/-! ### Graph-operation lemmas -/

theorem hasVertexB_pushAdj (g : Graph) (k : String) (a : Adj) (v : String) :
    hasVertexB (pushAdj g k a) v = hasVertexB g v := by
  unfold hasVertexB pushAdj
  induction g with
  | nil => rfl
  | cons p t ih =>
    rw [List.map_cons, List.any_cons, List.any_cons, ih]
    by_cases hpk : p.1 = k <;> simp [hpk]

theorem getNeighbors_pushAdj_self (g : Graph) (k : String) (a : Adj)
    (h : hasVertexB g k = true) :
    getNeighbors (pushAdj g k a) k = getNeighbors g k ++ [a] := by
  unfold getNeighbors pushAdj
  induction g with
  | nil => simp [hasVertexB] at h
  | cons p t ih =>
    by_cases hpk : p.1 = k
    · simp [List.map_cons, lookupEntry_cons, hpk]
    · have hb : (p.1 == k) = false := beq_eq_false_iff_ne.mpr hpk
      have ht : hasVertexB t k = true := by
        unfold hasVertexB at h
        rw [List.any_cons, hb, Bool.false_or] at h
        exact h
      simpa [List.map_cons, lookupEntry_cons, hpk] using ih ht

theorem getNeighbors_pushAdj_ne (g : Graph) (k : String) (a : Adj)
    (v : String) (hne : v ≠ k) :
    getNeighbors (pushAdj g k a) v = getNeighbors g v := by
  unfold getNeighbors pushAdj
  induction g with
  | nil => rfl
  | cons p t ih =>
    by_cases hpk : p.1 = k
    · simpa [List.map_cons, lookupEntry_cons, hpk, Ne.symm hne] using ih
    · by_cases hpv : p.1 = v
      · simp [List.map_cons, lookupEntry_cons, hpk, hpv, hne]
      · simpa [List.map_cons, lookupEntry_cons, hpk, hpv] using ih

theorem hasVertexB_addEdge (g : Graph) (s d : String) (c : Nat) (v : String) :
    hasVertexB (addEdge g s d c) v = hasVertexB g v := by
  unfold addEdge
  split
  · simp [hasVertexB_pushAdj]
  · rfl

theorem getNeighbors_addEdge_src (g : Graph) (s d : String) (c : Nat)
    (hs : hasVertexB g s = true) (hd : hasVertexB g d = true) (hne : s ≠ d) :
    getNeighbors (addEdge g s d c) s = getNeighbors g s ++ [⟨d, c⟩] := by
  unfold addEdge
  rw [if_pos (by simp [hs, hd])]
  rw [getNeighbors_pushAdj_ne _ _ _ _ hne, getNeighbors_pushAdj_self _ _ _ hs]

theorem getNeighbors_addEdge_des (g : Graph) (s d : String) (c : Nat)
    (hs : hasVertexB g s = true) (hd : hasVertexB g d = true) (hne : s ≠ d) :
    getNeighbors (addEdge g s d c) d = getNeighbors g d ++ [⟨s, c⟩] := by
  unfold addEdge
  rw [if_pos (by simp [hs, hd])]
  rw [getNeighbors_pushAdj_self _ _ _ (by simp [hasVertexB_pushAdj, hd]),
    getNeighbors_pushAdj_ne _ _ _ _ (Ne.symm hne)]

theorem getNeighbors_addEdge_selfLoop (g : Graph) (v : String) (c : Nat)
    (h : hasVertexB g v = true) :
    getNeighbors (addEdge g v v c) v = getNeighbors g v ++ [⟨v, c⟩, ⟨v, c⟩] := by
  unfold addEdge
  rw [if_pos (by simp [h])]
  rw [getNeighbors_pushAdj_self _ _ _ (by simp [hasVertexB_pushAdj, h]),
    getNeighbors_pushAdj_self _ _ _ h, List.append_assoc]
  rfl

/-! ### Additional small lemmas -/

theorem lookupEntry_eq_none {α : Type} (l : List (String × α)) (k : String)
    (h : hasKeyB l k = false) : lookupEntry l k = none := by
  unfold hasKeyB at h
  induction l with
  | nil => rfl
  | cons a t ih =>
    rw [List.any_cons] at h
    have hb := (Bool.or_eq_false_iff.mp h).1
    have ht := (Bool.or_eq_false_iff.mp h).2
    have hak : ¬ (a.1 = k) := by simpa using hb
    simpa [lookupEntry_cons, hak] using ih ht

theorem lookupFlag_eq_false (l : List (String × Bool)) (k : String)
    (h : hasKeyB l k = false) : lookupFlag l k = false := by
  simp [lookupFlag, lookupEntry_eq_none l k h]

theorem filter_eq_nil_of_any_false {α : Type} (p : α → Bool) (l : List α)
    (h : l.any p = false) : l.filter p = [] := by
  induction l with
  | nil => rfl
  | cons a t ih =>
    rw [List.any_cons] at h
    have ha := (Bool.or_eq_false_iff.mp h).1
    have ht := (Bool.or_eq_false_iff.mp h).2
    simp [List.filter_cons, ha, ih ht]

/-! ### Concrete networks used by the claims -/

/-- The two-vertex base network of the keying scenarios: vertices a and b,
no edge yet, link failure probability 1 so that an inserted edge samples
its flag as down. -/
def netAB0 : Network :=
  { networkGraph := addVertex (addVertex [] "a") "b",
    nodeFailures := [("a", false), ("b", false)], linkFailures := [],
    nodeFailureProbability := 0, linkFailureProbability := 1 }

/-- A deterministic draw stream that always returns 0. -/
def rngZero : Nat → ℚ := fun _ => 0

/-- The network obtained from netAB0 by the accepted insertion of edge a-b
with cost 1 whose sampled failure flag is true. -/
def netABdown : Network :=
  { networkGraph := addEdge (addVertex (addVertex [] "a") "b") "a" "b" 1,
    nodeFailures := [("a", false), ("b", false)],
    linkFailures := [("a-b", true)],
    nodeFailureProbability := 0, linkFailureProbability := 1 }

/-- The 3-vertex test graph of the spec scenario: edges a-b cost 3,
a-c cost 2, b-c cost 4, built through addVertex and addEdge. -/
def gABC : Graph :=
  addEdge (addEdge (addEdge (addVertex (addVertex (addVertex [] "a") "b") "c")
    "a" "b" 3) "a" "c" 2) "b" "c" 4

/-- The 3-vertex network with no failures. -/
def netABC : Network :=
  { networkGraph := gABC,
    nodeFailures := [("a", false), ("b", false), ("c", false)],
    linkFailures := [("a-b", false), ("a-c", false), ("b-c", false)],
    nodeFailureProbability := 0, linkFailureProbability := 0 }

/-- The 3-vertex network after the failure flag of edge a-c is set true. -/
def netABCdown : Network :=
  { netABC with linkFailures := setAssoc netABC.linkFailures "a-c" true }

/-- Two isolated vertices a and b, used by the duplicate-edge and self-loop
counterexamples. -/
def gAB : Graph := addVertex (addVertex [] "a") "b"

/-- One isolated vertex a. -/
def gA : Graph := addVertex [] "a"

/-! ### Claims C1 to C4 -/

/-- C1, counterexample to the claim as stated: an edge accepted into the
network (inserted as a to b, sampled flag true, so the edge is down) has
its flag stored under the key a-b only; the lookup from the two directions
resolves to different booleans, and findShortestPath traverses the down
edge when the traversal comes from endpoint b, instead of skipping it
regardless of direction. -/
theorem claim1_canonical_key_cex :
    addEdgeWithFailure netAB0 "a" "b" 1 rngZero 0 = some (netABdown, 1) ∧
    lookupFlag netABdown.linkFailures "a-b" = true ∧
    lookupFlag netABdown.linkFailures "b-a" = false ∧
    findShortestPath netABdown "a" "b" = none ∧
    findShortestPath netABdown "b" "a" = some ["b", "a"] := by decide

/-- C1 (amended): for every edge accepted into the network, the failure flag
is stored under the single insertion-direction key from-to; the reverse key
to-from is not stored, so the lookup findShortestPath performs while
traversing from the other endpoint misses and treats the edge as up. -/
theorem claim1_directional_key (net : Network) (frm toV : String) (cost : Nat)
    (rng : Nat → ℚ) (i : Nat)
    (hf : hasVertexB net.networkGraph frm = true)
    (ht : hasVertexB net.networkGraph toV = true)
    (he1 : (getNeighbors net.networkGraph frm).any (fun e => e.vertex == toV) = false)
    (he2 : (getNeighbors net.networkGraph toV).any (fun e => e.vertex == frm) = false)
    (hkr : hasKeyB net.linkFailures (toV ++ "-" ++ frm) = false)
    (hkne : frm ++ "-" ++ toV ≠ toV ++ "-" ++ frm)
    (net1 : Network)
    (hins : addEdgeWithFailure net frm toV cost rng i = some (net1, i + 1)) :
    lookupFlag net1.linkFailures (frm ++ "-" ++ toV) =
      decide (rng i < net.linkFailureProbability) ∧
    hasKeyB net1.linkFailures (toV ++ "-" ++ frm) = false ∧
    lookupFlag net1.linkFailures (toV ++ "-" ++ frm) = false := by
  have hres : addEdgeWithFailure net frm toV cost rng i =
      some ({ net with
                networkGraph := addEdge net.networkGraph frm toV cost,
                linkFailures := setAssoc net.linkFailures (frm ++ "-" ++ toV)
                  (decide (rng i < net.linkFailureProbability)) }, i + 1) := by
    simp [addEdgeWithFailure, hf, ht, he1, he2]
  rw [hres] at hins
  simp only [Option.some.injEq, Prod.mk.injEq, and_true] at hins
  rw [← hins]
  refine ⟨lookupFlag_setAssoc_self _ _ _, ?_, ?_⟩
  · rw [hasKeyB_setAssoc_ne _ _ _ _ (Ne.symm hkne)]
    exact hkr
  · rw [lookupFlag_setAssoc_ne _ _ _ _ (Ne.symm hkne)]
    exact lookupFlag_eq_false _ _ hkr

/-- Witness for claim1_directional_key at the concrete insertion of edge
a-b into netAB0. -/
theorem claim1_directional_key_witness :
    lookupFlag netABdown.linkFailures ("a" ++ "-" ++ "b") =
      decide (rngZero 0 < netAB0.linkFailureProbability) ∧
    hasKeyB netABdown.linkFailures ("b" ++ "-" ++ "a") = false :=
  have h := claim1_directional_key netAB0 "a" "b" 1 rngZero 0 (by decide)
    (by decide) (by decide) (by decide) (by decide) (by decide) netABdown
    (by decide)
  ⟨h.1, h.2.1⟩

/-- C2: on the 3-vertex graph with edges a-b cost 3, a-c cost 2, b-c cost 4
and no failures, the shortest path a to c is [a, c] and a to b is [a, b];
after the failure flag of edge a-c is set true, the shortest path a to c
is [a, b, c]. -/
theorem claim2_three_vertex_scenario :
    findShortestPath netABC "a" "c" = some ["a", "c"] ∧
    findShortestPath netABC "a" "b" = some ["a", "b"] ∧
    findShortestPath netABCdown "a" "c" = some ["a", "b", "c"] := by decide

/-- C3, counterexample to the claim as stated: Graph.addEdge itself performs
no duplicate check, so a second addEdge(a, b, 5) after addEdge(a, b, 3)
changes the graph and leaves two entries for b in the adjacency list of a. -/
theorem claim3_graph_addEdge_duplicate_cex :
    getNeighbors (addEdge (addEdge gAB "a" "b" 3) "a" "b" 5) "a" =
      [⟨"b", 3⟩, ⟨"b", 5⟩] ∧
    addEdge (addEdge gAB "a" "b" 3) "a" "b" 5 ≠ addEdge gAB "a" "b" 3 := by
  decide

/-- C3 (amended): the duplicate check lives in Network.addEdgeWithFailure,
not in Graph.addEdge: after a first accepted insertion of edge u-v, a
second insertion through addEdgeWithFailure is a no-op (it consumes no
random draw and returns the state unchanged), and the adjacency list of u
holds exactly one entry for v, carrying the cost of the first insertion,
and symmetrically for v. -/
theorem claim3_network_duplicate_noop (net : Network) (u v : String)
    (c1 c2 : Nat) (rng rng2 : Nat → ℚ) (i j : Nat)
    (hu : hasVertexB net.networkGraph u = true)
    (hv : hasVertexB net.networkGraph v = true)
    (hne : u ≠ v)
    (he1 : (getNeighbors net.networkGraph u).any (fun e => e.vertex == v) = false)
    (he2 : (getNeighbors net.networkGraph v).any (fun e => e.vertex == u) = false)
    (net1 : Network)
    (hins : addEdgeWithFailure net u v c1 rng i = some (net1, i + 1)) :
    addEdgeWithFailure net1 u v c2 rng2 j = some (net1, j) ∧
    (getNeighbors net1.networkGraph u).filter (fun e => e.vertex == v) =
      [⟨v, c1⟩] ∧
    (getNeighbors net1.networkGraph v).filter (fun e => e.vertex == u) =
      [⟨u, c1⟩] := by
  have hres : addEdgeWithFailure net u v c1 rng i =
      some ({ net with
                networkGraph := addEdge net.networkGraph u v c1,
                linkFailures := setAssoc net.linkFailures (u ++ "-" ++ v)
                  (decide (rng i < net.linkFailureProbability)) }, i + 1) := by
    simp [addEdgeWithFailure, hu, hv, he1, he2]
  rw [hres] at hins
  simp only [Option.some.injEq, Prod.mk.injEq, and_true] at hins
  rw [← hins]
  have hgu : getNeighbors (addEdge net.networkGraph u v c1) u =
      getNeighbors net.networkGraph u ++ [⟨v, c1⟩] :=
    getNeighbors_addEdge_src _ _ _ _ hu hv hne
  have hgv : getNeighbors (addEdge net.networkGraph u v c1) v =
      getNeighbors net.networkGraph v ++ [⟨u, c1⟩] :=
    getNeighbors_addEdge_des _ _ _ _ hu hv hne
  refine ⟨?_, ?_, ?_⟩
  · have hex : (getNeighbors (addEdge net.networkGraph u v c1) u).any
        (fun e => e.vertex == v) = true := by
      rw [hgu, List.any_append]
      simp
    unfold addEdgeWithFailure
    rw [if_pos (by simp [hasVertexB_addEdge, hu, hv])]
    simp [hex]
  · rw [hgu, List.filter_append, filter_eq_nil_of_any_false _ _ he1]
    simp
  · rw [hgv, List.filter_append, filter_eq_nil_of_any_false _ _ he2]
    simp

/-- Witness for claim3_network_duplicate_noop: after inserting edge a-b
into netAB0, a second insertion with a different cost is a no-op. -/
theorem claim3_network_duplicate_noop_witness :
    addEdgeWithFailure netABdown "a" "b" 5 rngZero 7 = some (netABdown, 7) ∧
    (getNeighbors netABdown.networkGraph "a").filter
      (fun e => e.vertex == "b") = [⟨"b", 1⟩] :=
  have h := claim3_network_duplicate_noop netAB0 "a" "b" 1 5 rngZero rngZero
    0 7 (by decide) (by decide) (by decide) (by decide) (by decide) netABdown
    (by decide)
  ⟨h.1, h.2.1⟩

/-- C4, counterexample to the claim as stated: addEdge(a, a, 5) on a graph
holding vertex a is not rejected: the graph changes and the adjacency list
of a gains two entries listing a itself. -/
theorem claim4_self_loop_cex :
    addEdge gA "a" "a" 5 ≠ gA ∧
    getNeighbors (addEdge gA "a" "a" 5) "a" = [⟨"a", 5⟩, ⟨"a", 5⟩] := by
  decide

/-- C4 (amended): for every vertex v present in the graph and every cost c,
addEdge(v, v, c) is accepted, and the adjacency list of v gains two entries
listing v itself with cost c (self-loops are not rejected). -/
theorem claim4_self_loop_inserted (g : Graph) (v : String) (c : Nat)
    (h : hasVertexB g v = true) :
    getNeighbors (addEdge g v v c) v = getNeighbors g v ++ [⟨v, c⟩, ⟨v, c⟩] :=
  getNeighbors_addEdge_selfLoop g v c h

/-- Witness for claim4_self_loop_inserted on the one-vertex graph. -/
theorem claim4_self_loop_inserted_witness :
    hasVertexB gA "a" = true ∧
    getNeighbors (addEdge gA "a" "a" 5) "a" =
      getNeighbors gA "a" ++ [⟨"a", 5⟩, ⟨"a", 5⟩] :=
  ⟨by decide, claim4_self_loop_inserted gA "a" 5 (by decide)⟩

/-! ### Claims C7 to C9 -/

theorem checkFlags_zero (rng : Nat → ℚ) (hrng : ∀ k, 0 ≤ rng k) :
    ∀ (l : List (String × Bool)) (i : Nat), (checkFlags 0 rng l i).1 = l := by
  intro l
  induction l with
  | nil => intro i; rfl
  | cons a t ih =>
    intro i
    obtain ⟨n, b⟩ := a
    have hnl : ¬ (rng i < 0) := not_lt.mpr (hrng i)
    simp [checkFlags, hnl, ih (i + 1)]

theorem checkNodeFailures_zero (net : Network) (rng : Nat → ℚ) (i : Nat)
    (hn : net.nodeFailureProbability = 0) (hrng : ∀ k, 0 ≤ rng k) :
    (checkNodeFailures net rng i).1 = net := by
  show ({ net with
    nodeFailures :=
      (checkFlags net.nodeFailureProbability rng net.nodeFailures i).1 } :
      Network) = net
  rw [hn, checkFlags_zero rng hrng, ← hn]

theorem checkLinkFailures_zero (net : Network) (rng : Nat → ℚ) (i : Nat)
    (hl : net.linkFailureProbability = 0) (hrng : ∀ k, 0 ≤ rng k) :
    (checkLinkFailures net rng i).1 = net := by
  show ({ net with
    linkFailures :=
      (checkFlags net.linkFailureProbability rng net.linkFailures i).1 } :
      Network) = net
  rw [hl, checkFlags_zero rng hrng, ← hl]

theorem simulateTick_zero (net : Network) (rng : Nat → ℚ) (i : Nat)
    (hn : net.nodeFailureProbability = 0)
    (hl : net.linkFailureProbability = 0) (hrng : ∀ k, 0 ≤ rng k) :
    (simulateTick net rng i).1 = net := by
  show (checkLinkFailures (checkNodeFailures net rng i).1 rng
    (checkNodeFailures net rng i).2).1 = net
  rw [checkNodeFailures_zero net rng i hn hrng]
  exact checkLinkFailures_zero net rng _ hl hrng

theorem simulateTicks_zero (rng : Nat → ℚ) (hrng : ∀ k, 0 ≤ rng k) :
    ∀ (m : Nat) (net : Network) (i : Nat),
      net.nodeFailureProbability = 0 → net.linkFailureProbability = 0 →
      (simulateTicks rng net i m).1 = net := by
  intro m
  induction m with
  | zero => intro net i hn hl; rfl
  | succ m ih =>
    intro net i hn hl
    have ht : (simulateTick net rng i).1 = net :=
      simulateTick_zero net rng i hn hl hrng
    show (simulateTicks rng (simulateTick net rng i).1
      (simulateTick net rng i).2 m).1 = net
    rw [ht]
    exact ih net _ hn hl

/-- C7: with both failure probabilities 0, checkNodeFailures and
checkLinkFailures leave the network unchanged, and so does any number of
simulation ticks, for every stream of (nonnegative) random draws. -/
theorem claim7_zero_probability_invariant (net : Network) (rng : Nat → ℚ)
    (i m : Nat) (hn : net.nodeFailureProbability = 0)
    (hl : net.linkFailureProbability = 0) (hrng : ∀ k, 0 ≤ rng k) :
    (checkNodeFailures net rng i).1 = net ∧
    (checkLinkFailures net rng i).1 = net ∧
    (simulateTicks rng net i m).1 = net :=
  ⟨checkNodeFailures_zero net rng i hn hrng,
   checkLinkFailures_zero net rng i hl hrng,
   simulateTicks_zero rng hrng m net i hn hl⟩

/-- Witness for claim7_zero_probability_invariant: five ticks on the
3-vertex zero-probability network change nothing. -/
theorem claim7_zero_probability_invariant_witness :
    netABC.nodeFailureProbability = 0 ∧
    (simulateTicks rngZero netABC 0 5).1 = netABC :=
  ⟨rfl, (claim7_zero_probability_invariant netABC rngZero 0 5 rfl rfl
    (fun _ => le_refl 0)).2.2⟩

theorem reset_all_false :
    ∀ l : List (String × Bool),
      ((l.map fun p => (p.1, false)).all fun p => !p.2) = true := by
  intro l
  induction l with
  | nil => rfl
  | cons a t ih => simp [ih]

theorem reset_keys :
    ∀ l : List (String × Bool),
      (l.map fun p => (p.1, false)).map Prod.fst = l.map Prod.fst := by
  intro l
  induction l with
  | nil => rfl
  | cons a t ih => simp [ih]

/-- C8: resetNetwork sets every vertex flag and every edge flag to false,
keeps the key sets of both flag maps, and leaves the topology and the two
probabilities unchanged (its model consumes no random draw, matching the
JS body, which contains no sampling call). -/
theorem claim8_reset_flags (net : Network) :
    ((resetNetwork net).nodeFailures.all fun p => !p.2) = true ∧
    ((resetNetwork net).linkFailures.all fun p => !p.2) = true ∧
    (resetNetwork net).nodeFailures.map Prod.fst =
      net.nodeFailures.map Prod.fst ∧
    (resetNetwork net).linkFailures.map Prod.fst =
      net.linkFailures.map Prod.fst ∧
    (resetNetwork net).networkGraph = net.networkGraph ∧
    (resetNetwork net).nodeFailureProbability = net.nodeFailureProbability ∧
    (resetNetwork net).linkFailureProbability = net.linkFailureProbability :=
  ⟨reset_all_false _, reset_all_false _, reset_keys _, reset_keys _,
   rfl, rfl, rfl⟩

/-- C9: setProbabilities with an invalid input pair (a value outside [0,1]
or a failed parse) leaves the whole network state unchanged; with two valid
values it replaces exactly the two probabilities and touches nothing else,
in particular no current failure flag. -/
theorem claim9_set_probabilities (net : Network) (np lp : Option ℚ) :
    (probInputsValid np lp = false → setProbabilities net np lp = net) ∧
    (∀ np0 lp0, np = some np0 → lp = some lp0 →
      probInputsValid np lp = true →
      setProbabilities net np lp =
        { net with nodeFailureProbability := np0,
                   linkFailureProbability := lp0 }) := by
  constructor
  · intro h
    simp [setProbabilities, h]
  · intro np0 lp0 hnp hlp h
    subst hnp
    subst hlp
    simp [setProbabilities, h]

/-- Witness for claim9_set_probabilities: the out-of-range pair (2, 0) is
rejected and the valid pair (1, 0) replaces the probabilities. -/
theorem claim9_set_probabilities_witness :
    probInputsValid (some 2) (some 0) = false ∧
    setProbabilities netABdown (some 2) (some 0) = netABdown ∧
    setProbabilities netABdown (some 1) (some 0) =
      { netABdown with nodeFailureProbability := 1,
                       linkFailureProbability := 0 } :=
  ⟨by decide,
   (claim9_set_probabilities netABdown (some 2) (some 0)).1 (by decide),
   (claim9_set_probabilities netABdown (some 1) (some 0)).2 1 0 rfl rfl
     (by decide)⟩


/-! ### Dijkstra-loop invariants for claims C5, C6, C10 -/

/-- The predecessor map computed by findShortestPath before reconstruction. -/
def dijkstraPrev (net : Network) (start : String) : PrevMap :=
  (dijkstraLoop net.nodeFailures net.linkFailures net.networkGraph
    (net.networkGraph.map (fun p => p.1)).length
    (net.networkGraph.map (fun p => p.1))
    (setAssoc (net.networkGraph.map (fun p => (p.1, none))) start (some 0))
    (net.networkGraph.map (fun p => (p.1, none)))).2

theorem findShortestPath_eq (net : Network) (start endV : String) :
    findShortestPath net start endV =
      if (walkBack (dijkstraPrev net start)
            ((dijkstraPrev net start).length + 1) (some endV) []).length > 1
      then some (walkBack (dijkstraPrev net start)
            ((dijkstraPrev net start).length + 1) (some endV) [])
      else none := rfl

theorem relaxCond_zero (curD : Option (Option Nat)) (c : Nat) :
    relaxCond curD c (some (some 0)) = false := by
  cases curD with
  | none => rfl
  | some od =>
    cases od with
    | none => rfl
    | some d => simp [relaxCond, dLt]

theorem relax_noop_none (nodeF linkF : List (String × Bool)) (minNode : String) :
    ∀ (es : List Adj) (dist : DistMap) (prev : PrevMap),
      relaxEdges nodeF linkF minNode none es dist prev = (dist, prev) := by
  intro es
  induction es with
  | nil => intro dist prev; rfl
  | cons e es ih =>
    intro dist prev
    simp only [relaxEdges]
    by_cases hc : (lookupFlag nodeF e.vertex ||
        lookupFlag linkF (minNode ++ "-" ++ e.vertex)) = true
    · rw [if_pos hc]
      exact ih dist prev
    · rw [if_neg hc]
      show (if relaxCond none e.cost (lookupD dist e.vertex) then _ else _) =
        (dist, prev)
      rw [show relaxCond none e.cost (lookupD dist e.vertex) = false from rfl]
      simp only [Bool.false_eq_true, if_false]
      exact ih dist prev

theorem relax_prev_entry_frame (nodeF linkF : List (String × Bool))
    (minNode : String) (curD : Option (Option Nat)) (v : String)
    (hv : lookupFlag nodeF v = true) :
    ∀ (es : List Adj) (dist : DistMap) (prev : PrevMap),
      lookupEntry (relaxEdges nodeF linkF minNode curD es dist prev).2 v =
        lookupEntry prev v := by
  intro es
  induction es with
  | nil => intro dist prev; rfl
  | cons e es ih =>
    intro dist prev
    simp only [relaxEdges]
    by_cases hc : (lookupFlag nodeF e.vertex ||
        lookupFlag linkF (minNode ++ "-" ++ e.vertex)) = true
    · rw [if_pos hc]
      exact ih dist prev
    · rw [if_neg hc]
      have hnf : lookupFlag nodeF e.vertex = false :=
        (Bool.or_eq_false_iff.mp (Bool.eq_false_iff.mpr hc)).1
      have hne : e.vertex ≠ v := fun he => by
        rw [he, hv] at hnf
        exact Bool.noConfusion hnf
      by_cases hr : relaxCond curD e.cost (lookupD dist e.vertex) = true
      · rw [if_pos hr, ih _ _]
        exact lookupEntry_setAssoc_ne prev e.vertex v (some minNode)
          (Ne.symm hne)
      · rw [if_neg hr]
        exact ih dist prev

theorem relax_start_frame (nodeF linkF : List (String × Bool))
    (minNode : String) (curD : Option (Option Nat)) (s : String) :
    ∀ (es : List Adj) (dist : DistMap) (prev : PrevMap),
      lookupEntry dist s = some (some 0) →
      lookupEntry (relaxEdges nodeF linkF minNode curD es dist prev).1 s =
        some (some 0) ∧
      lookupEntry (relaxEdges nodeF linkF minNode curD es dist prev).2 s =
        lookupEntry prev s := by
  intro es
  induction es with
  | nil => intro dist prev h0; exact ⟨h0, rfl⟩
  | cons e es ih =>
    intro dist prev h0
    simp only [relaxEdges]
    by_cases hc : (lookupFlag nodeF e.vertex ||
        lookupFlag linkF (minNode ++ "-" ++ e.vertex)) = true
    · rw [if_pos hc]
      exact ih dist prev h0
    · rw [if_neg hc]
      by_cases hr : relaxCond curD e.cost (lookupD dist e.vertex) = true
      · rw [if_pos hr]
        have hne : e.vertex ≠ s := by
          intro he
          rw [he, show lookupD dist s = some (some 0) from h0,
            relaxCond_zero] at hr
          exact Bool.noConfusion hr
        have h0b : lookupEntry
            (setAssoc dist e.vertex (newDistVal curD e.cost)) s =
            some (some 0) := by
          rw [lookupEntry_setAssoc_ne dist e.vertex s _ (Ne.symm hne)]
          exact h0
        have hrec := ih (setAssoc dist e.vertex (newDistVal curD e.cost))
          (setAssoc prev e.vertex (some minNode)) h0b
        refine ⟨hrec.1, ?_⟩
        rw [hrec.2]
        exact lookupEntry_setAssoc_ne prev e.vertex s (some minNode)
          (Ne.symm hne)
      · rw [if_neg hr]
        exact ih dist prev h0

theorem relax_nofin (nodeF linkF : List (String × Bool)) (minNode : String)
    (curD : Option (Option Nat)) (v : String)
    (hv : lookupFlag nodeF v = true) :
    ∀ (es : List Adj) (dist : DistMap) (prev : PrevMap),
      isFiniteD (lookupD dist v) = false →
      isFiniteD (lookupD
        (relaxEdges nodeF linkF minNode curD es dist prev).1 v) = false := by
  intro es
  induction es with
  | nil => intro dist prev hA; exact hA
  | cons e es ih =>
    intro dist prev hA
    simp only [relaxEdges]
    by_cases hc : (lookupFlag nodeF e.vertex ||
        lookupFlag linkF (minNode ++ "-" ++ e.vertex)) = true
    · rw [if_pos hc]
      exact ih dist prev hA
    · rw [if_neg hc]
      have hnf : lookupFlag nodeF e.vertex = false :=
        (Bool.or_eq_false_iff.mp (Bool.eq_false_iff.mpr hc)).1
      have hne : e.vertex ≠ v := fun he => by
        rw [he, hv] at hnf
        exact Bool.noConfusion hnf
      by_cases hr : relaxCond curD e.cost (lookupD dist e.vertex) = true
      · rw [if_pos hr]
        refine ih _ _ ?_
        unfold lookupD
        rw [lookupEntry_setAssoc_ne dist e.vertex v _ (Ne.symm hne)]
        exact hA
      · rw [if_neg hr]
        exact ih dist prev hA

theorem relax_noprev (nodeF linkF : List (String × Bool)) (minNode : String)
    (curD : Option (Option Nat)) (v : String) (hm : minNode ≠ v) :
    ∀ (es : List Adj) (dist : DistMap) (prev : PrevMap),
      (∀ u, lookupPrevJoin prev u ≠ some v) →
      ∀ u, lookupPrevJoin
        (relaxEdges nodeF linkF minNode curD es dist prev).2 u ≠ some v := by
  intro es
  induction es with
  | nil => intro dist prev hB; exact hB
  | cons e es ih =>
    intro dist prev hB
    simp only [relaxEdges]
    by_cases hc : (lookupFlag nodeF e.vertex ||
        lookupFlag linkF (minNode ++ "-" ++ e.vertex)) = true
    · rw [if_pos hc]
      exact ih dist prev hB
    · rw [if_neg hc]
      by_cases hr : relaxCond curD e.cost (lookupD dist e.vertex) = true
      · rw [if_pos hr]
        refine ih _ _ ?_
        intro u
        unfold lookupPrevJoin
        by_cases hu : u = e.vertex
        · rw [hu, lookupEntry_setAssoc_self]
          intro hcon
          simp only [Option.some_bind, id_eq] at hcon
          exact hm (Option.some.inj hcon)
        · rw [lookupEntry_setAssoc_ne prev e.vertex u _ hu]
          exact hB u
      · rw [if_neg hr]
        exact ih dist prev hB

theorem dloop_prev_entry_frame (nodeF linkF : List (String × Bool))
    (g : Graph) (v : String) (hv : lookupFlag nodeF v = true) :
    ∀ (fuel : Nat) (queue : List String) (dist : DistMap) (prev : PrevMap),
      lookupEntry (dijkstraLoop nodeF linkF g fuel queue dist prev).2 v =
        lookupEntry prev v := by
  intro fuel
  induction fuel with
  | zero => intro queue dist prev; rfl
  | succ fuel ih =>
    intro queue dist prev
    cases queue with
    | nil => rfl
    | cons q qs =>
      simp only [dijkstraLoop]
      by_cases hbr : lookupD dist (selectMinAux dist qs q) = some none
      · rw [if_pos hbr]
      · rw [if_neg hbr, ih _ _ _]
        exact relax_prev_entry_frame nodeF linkF _ _ v hv _ dist prev

theorem dloop_start_frame (nodeF linkF : List (String × Bool)) (g : Graph)
    (s : String) :
    ∀ (fuel : Nat) (queue : List String) (dist : DistMap) (prev : PrevMap),
      lookupEntry dist s = some (some 0) →
      lookupEntry (dijkstraLoop nodeF linkF g fuel queue dist prev).2 s =
        lookupEntry prev s := by
  intro fuel
  induction fuel with
  | zero => intro queue dist prev h0; rfl
  | succ fuel ih =>
    intro queue dist prev h0
    cases queue with
    | nil => rfl
    | cons q qs =>
      simp only [dijkstraLoop]
      by_cases hbr : lookupD dist (selectMinAux dist qs q) = some none
      · rw [if_pos hbr]
      · rw [if_neg hbr]
        have hrel := relax_start_frame nodeF linkF (selectMinAux dist qs q)
          (lookupD dist (selectMinAux dist qs q)) s
          (getNeighbors g (selectMinAux dist qs q)) dist prev h0
        rw [ih _ _ _ hrel.1, hrel.2]

theorem dloop_down_inv (nodeF linkF : List (String × Bool)) (g : Graph)
    (v : String) (hv : lookupFlag nodeF v = true) :
    ∀ (fuel : Nat) (queue : List String) (dist : DistMap) (prev : PrevMap),
      isFiniteD (lookupD dist v) = false →
      (∀ u, lookupPrevJoin prev u ≠ some v) →
      ∀ u, lookupPrevJoin
        (dijkstraLoop nodeF linkF g fuel queue dist prev).2 u ≠ some v := by
  intro fuel
  induction fuel with
  | zero => intro queue dist prev hA hB; exact hB
  | succ fuel ih =>
    intro queue dist prev hA hB
    cases queue with
    | nil => exact hB
    | cons q qs =>
      simp only [dijkstraLoop]
      by_cases hbr : lookupD dist (selectMinAux dist qs q) = some none
      · rw [if_pos hbr]
        exact hB
      · rw [if_neg hbr]
        rcases hcur : lookupD dist (selectMinAux dist qs q) with _ | od
        · rw [relax_noop_none nodeF linkF _ _ dist prev]
          exact ih _ _ _ hA hB
        · cases od with
          | none => exact absurd hcur hbr
          | some d =>
            have hmv : (selectMinAux dist qs q) ≠ v := by
              intro he
              rw [he] at hcur
              rw [hcur] at hA
              simp [isFiniteD] at hA
            have hA2 := relax_nofin nodeF linkF (selectMinAux dist qs q)
              (some (some d)) v hv
              (getNeighbors g (selectMinAux dist qs q)) dist prev hA
            have hB2 := relax_noprev nodeF linkF (selectMinAux dist qs q)
              (some (some d)) v hmv
              (getNeighbors g (selectMinAux dist qs q)) dist prev hB
            exact ih _ _ _ hA2 hB2

/-! ### Initial-state and reconstruction lemmas -/

theorem prevInit_entry (g : Graph) (u : String) :
    lookupEntry (g.map (fun p => (p.1, (none : Option String)))) u = none ∨
    lookupEntry (g.map (fun p => (p.1, (none : Option String)))) u =
      some none := by
  induction g with
  | nil => exact Or.inl rfl
  | cons p t ih =>
    by_cases hp : p.1 = u
    · right
      simp [lookupEntry_cons, hp]
    · simpa [lookupEntry_cons, hp] using ih

theorem prevInit_join (g : Graph) (u : String) :
    lookupPrevJoin (g.map (fun p => (p.1, (none : Option String)))) u =
      none := by
  unfold lookupPrevJoin
  rcases prevInit_entry g u with h | h <;> rw [h] <;> rfl

theorem distInit_nofin (g : Graph) (u : String) :
    isFiniteD (lookupEntry
      (g.map (fun p => (p.1, (none : Option Nat)))) u) = false := by
  induction g with
  | nil => rfl
  | cons p t ih =>
    by_cases hp : p.1 = u
    · simp [lookupEntry_cons, hp, isFiniteD]
    · simpa [lookupEntry_cons, hp] using ih

theorem walkBack_none (prev : PrevMap) (fuel : Nat) (acc : List String) :
    walkBack prev fuel none acc = acc := by
  cases fuel <;> rfl

theorem walkBack_stop (prev : PrevMap) (fuel : Nat) (e : String)
    (acc : List String) (h : lookupPrevJoin prev e = none) :
    walkBack prev (fuel + 1) (some e) acc =
      if e == "" then acc else e :: acc := by
  rw [show walkBack prev (fuel + 1) (some e) acc =
    if e == "" then acc
    else walkBack prev fuel (lookupPrevJoin prev e) (e :: acc) from rfl]
  by_cases he : (e == "") = true
  · rw [if_pos he, if_pos he]
  · rw [if_neg he, if_neg he, h, walkBack_none]

theorem fsp_none_of_prev_none (net : Network) (start endV : String)
    (h : lookupPrevJoin (dijkstraPrev net start) endV = none) :
    findShortestPath net start endV = none := by
  rw [findShortestPath_eq, walkBack_stop _ _ _ _ h]
  by_cases he : (endV == "") = true
  · rw [if_pos he]
    simp
  · rw [if_neg he]
    simp

theorem sink_down_gives_none (net : Network) (start endV : String)
    (h : lookupFlag net.nodeFailures endV = true) :
    findShortestPath net start endV = none := by
  apply fsp_none_of_prev_none
  unfold dijkstraPrev lookupPrevJoin
  rw [dloop_prev_entry_frame net.nodeFailures net.linkFailures
    net.networkGraph endV h _ _ _ _]
  have hj := prevInit_join net.networkGraph endV
  unfold lookupPrevJoin at hj
  exact hj

theorem start_self_none (net : Network) (s : String) :
    findShortestPath net s s = none := by
  apply fsp_none_of_prev_none
  unfold dijkstraPrev lookupPrevJoin
  have h0 : lookupEntry
      (setAssoc (net.networkGraph.map fun p => (p.1, (none : Option Nat)))
        s (some 0)) s = some (some 0) :=
    lookupEntry_setAssoc_self _ _ _
  rw [dloop_start_frame net.nodeFailures net.linkFailures
    net.networkGraph s _ _ _ _ h0]
  have hj := prevInit_join net.networkGraph s
  unfold lookupPrevJoin at hj
  exact hj

theorem walk_not_mem (prev : PrevMap) (v : String)
    (hB : ∀ u, lookupPrevJoin prev u ≠ some v) :
    ∀ (fuel : Nat) (cur : Option String) (acc : List String),
      cur ≠ some v → v ∉ acc → v ∉ walkBack prev fuel cur acc := by
  intro fuel
  induction fuel with
  | zero =>
    intro cur acc hc ha
    cases cur with
    | none => simpa [walkBack_none] using ha
    | some c => simpa [walkBack] using ha
  | succ fuel ih =>
    intro cur acc hc ha
    cases cur with
    | none => simpa [walkBack_none] using ha
    | some c =>
      have hcv : c ≠ v := fun h => hc (by rw [h])
      rw [show walkBack prev (fuel + 1) (some c) acc =
        if c == "" then acc
        else walkBack prev fuel (lookupPrevJoin prev c) (c :: acc) from rfl]
      by_cases he : (c == "") = true
      · rw [if_pos he]
        exact ha
      · rw [if_neg he]
        refine ih (lookupPrevJoin prev c) (c :: acc) (hB c) ?_
        intro hmem
        rcases List.mem_cons.mp hmem with h | h
        · exact hcv h.symm
        · exact ha h

/-! ### Claims C5, C6, C10 -/

/-- The two-vertex network with edge a-b in which vertex b is down. -/
def netBDown : Network :=
  { networkGraph := addEdge (addVertex (addVertex [] "a") "b") "a" "b" 1,
    nodeFailures := [("a", false), ("b", true)],
    linkFailures := [("a-b", false)],
    nodeFailureProbability := 0, linkFailureProbability := 0 }

/-- The two-vertex network with edge a-b in which vertex a is down. -/
def netADown : Network :=
  { networkGraph := addEdge (addVertex (addVertex [] "a") "b") "a" "b" 1,
    nodeFailures := [("a", true), ("b", false)],
    linkFailures := [("a-b", false)],
    nodeFailureProbability := 0, linkFailureProbability := 0 }

/-- The 3-vertex network of the spec scenario in which vertex c is down. -/
def netCDown : Network :=
  { networkGraph := gABC,
    nodeFailures := [("a", false), ("b", false), ("c", true)],
    linkFailures := [("a-b", false), ("a-c", false), ("b-c", false)],
    nodeFailureProbability := 0, linkFailureProbability := 0 }

/-- C5: for every topology and failure state in which the failure flag of
the sink vertex is true, findShortestPath returns none, whatever the
topology would allow if flags were ignored. -/
theorem claim5_sink_down_no_path (net : Network) (start endV : String)
    (h : lookupFlag net.nodeFailures endV = true) :
    findShortestPath net start endV = none :=
  sink_down_gives_none net start endV h

/-- Witness for claim5_sink_down_no_path: with vertex b down the query
a to b yields no path although the edge a-b exists. -/
theorem claim5_sink_down_no_path_witness :
    lookupFlag netBDown.nodeFailures "b" = true ∧
    findShortestPath netBDown "a" "b" = none :=
  ⟨by decide, claim5_sink_down_no_path netBDown "a" "b" (by decide)⟩

/-- C6, counterexample to the claim as stated: vertex a is down, yet the
query from start a to b returns the path [a, b], which contains a. The
engine never consults the failure flag of the start vertex. -/
theorem claim6_down_start_cex :
    lookupFlag netADown.nodeFailures "a" = true ∧
    findShortestPath netADown "a" "b" = some ["a", "b"] ∧
    "a" ∈ (["a", "b"] : List String) := by decide

/-- C6 (amended): a vertex v whose failure flag is true appears in no
returned path and forces none as the answer of any query ending at v,
provided v is not the start vertex of the query; when v is the start
vertex, returned paths begin with v. -/
theorem claim6_down_vertex_pruned (net : Network) (start endV v : String)
    (hv : lookupFlag net.nodeFailures v = true) (hsv : v ≠ start) :
    findShortestPath net start v = none ∧
    ∀ p, findShortestPath net start endV = some p → v ∉ p := by
  constructor
  · exact sink_down_gives_none net start v hv
  · intro p hp
    by_cases hev : endV = v
    · rw [hev, sink_down_gives_none net start v hv] at hp
      exact Option.noConfusion hp
    · have hA0 : isFiniteD (lookupD
          (setAssoc (net.networkGraph.map fun p => (p.1, (none : Option Nat)))
            start (some 0)) v) = false := by
        unfold lookupD
        rw [lookupEntry_setAssoc_ne _ start v _ hsv]
        exact distInit_nofin net.networkGraph v
      have hB0 : ∀ u, lookupPrevJoin
          (net.networkGraph.map fun p => (p.1, (none : Option String))) u ≠
          some v := by
        intro u
        rw [prevInit_join net.networkGraph u]
        exact fun hcon => Option.noConfusion hcon
      have hB : ∀ u, lookupPrevJoin (dijkstraPrev net start) u ≠ some v := by
        unfold dijkstraPrev
        exact dloop_down_inv net.nodeFailures net.linkFailures
          net.networkGraph v hv _ _ _ _ hA0 hB0
      rw [findShortestPath_eq] at hp
      by_cases hlen : (walkBack (dijkstraPrev net start)
          ((dijkstraPrev net start).length + 1) (some endV) []).length > 1
      · rw [if_pos hlen] at hp
        rw [← Option.some.inj hp]
        exact walk_not_mem (dijkstraPrev net start) v hB _ (some endV) []
          (fun hcon => hev (Option.some.inj hcon)) (by simp)
      · rw [if_neg hlen] at hp
        exact Option.noConfusion hp

/-- Witness for claim6_down_vertex_pruned: with vertex c down, a query
ending at c yields no path, and c is absent from the path returned for
the query a to b. -/
theorem claim6_down_vertex_pruned_witness :
    lookupFlag netCDown.nodeFailures "c" = true ∧
    findShortestPath netCDown "a" "c" = none ∧
    "c" ∉ (["a", "b"] : List String) :=
  have h := claim6_down_vertex_pruned netCDown "a" "b" "c" (by decide)
    (by decide)
  ⟨by decide, h.1, h.2 ["a", "b"] (by decide)⟩

/-- C10: for every vertex s present in the graph, findShortestPath(s, s)
returns none, because the reconstructed sequence [s] has length 1 and any
reconstruction of length at most one is mapped to none. -/
theorem claim10_self_query_none (net : Network) (s : String)
    (_h : hasVertexB net.networkGraph s = true) :
    findShortestPath net s s = none :=
  start_self_none net s

/-- Witness for claim10_self_query_none on the pristine 3-vertex network. -/
theorem claim10_self_query_none_witness :
    hasVertexB netABC.networkGraph "a" = true ∧
    findShortestPath netABC "a" "a" = none :=
  ⟨by decide, claim10_self_query_none netABC "a" (by decide)⟩
